import Mathlib

/-!
Verification of the `EvaluateDataset` periodic-evaluation callback from the
`fancykeras` repository (notebook `00_00_evaluation.ipynb`, exported module
`callbacks.evaluation`).

The Python class is embedded shallowly:
* the object state is the structure `EvaluateDataset`;
* Python dictionaries are association lists with (implicitly) unique keys,
  preserving insertion order;
* Python `int` is `Int`; the Python `%` operator on integers is floor-mod
  (`Int.fmod`), and division by zero raises, which we model with an explicit
  error value;
* methods that can raise return `Except (PyExn ε) _`; the external
  `model.evaluate` call is injected as an `Except ε (List (String × α))`
  argument (its raw result dictionary, or the failure it raises).
-/

namespace FancyKeras

/-- Exceptions that the embedded Python code can surface: integer modulo by
zero, `ValueError` with its message, or a failure raised by the external
(injected) model-evaluation operation. -/
inductive PyExn (ε : Type) where
  | zeroDivisionError : PyExn ε
  | valueError : String → PyExn ε
  | external : ε → PyExn ε
deriving DecidableEq

/-- State of the `EvaluateDataset` callback object, mirroring the fields set
in `__init__`.  `δ` is the opaque dataset type, `α` the metric-value type. -/
structure EvaluateDataset (δ α : Type) where
  dataset : δ
  freq_epochs : Option Int
  freq_batches : Option Int
  append : String
  batches_seen : Int
  epochs_seen : Int
  _results_batches : List (List (String × α))
  _results_epochs : List (List (String × α))
deriving DecidableEq

variable {δ α ε L : Type}

/-- Association-list lookup modelling Python dictionary access `d[k]` /
membership `k in d` (first matching key wins; keys are unique in any list
that models a Python dict). -/
def lookupKey (k : String) : List (String × α) → Option α
  | [] => none
  | p :: rest => if p.1 = k then some p.2 else lookupKey k rest

/-- The key sequence of a dictionary, modelling Python `d.keys()`. -/
def keys (d : List (String × α)) : List String :=
  d.map Prod.fst

/-- In-place update `d[k] = v` of an existing key: replaces the value at the
first occurrence of `k`, leaving order and all other entries unchanged. -/
def setKey (k : String) (v : α) : List (String × α) → List (String × α)
  | [] => []
  | p :: rest => if p.1 = k then (k, v) :: rest else p :: setKey k v rest

/-- One step of the loop body of `_unpack_list_dicts`:
`if metric not in res.keys(): res[metric] = []` followed by
`res[metric].append(value)`.  A new key is inserted at the end (Python
insertion order); an existing key has the value appended to its list. -/
def dictAppend (res : List (String × List α)) (k : String) (v : α) :
    List (String × List α) :=
  match lookupKey k res with
  | none => res ++ [(k, [v])]
  | some vs => setKey k (vs ++ [v]) res

namespace EvaluateDataset

/-- `EvaluateDataset.__init__`: stores the dataset (the `_convert_to_dataset`
fallback is the identity), the two optional frequencies and the suffix, and
initializes both counters to 0 and both result buffers to empty.  The body
contains no `raise`, so it always returns `.ok`. -/
def init (dataset : δ) (freq_epochs freq_batches : Option Int)
    (append : String) : Except (PyExn Empty) (EvaluateDataset δ α) :=
  .ok { dataset := dataset
        freq_epochs := freq_epochs
        freq_batches := freq_batches
        append := append
        batches_seen := 0
        epochs_seen := 0
        _results_batches := []
        _results_epochs := [] }

/-- `EvaluateDataset.evaluate`: takes the raw dictionary returned by
`self.model.evaluate(self.dataset, verbose=0, return_dict=True)` and rebuilds
it with every key rewritten to `f"{name}{self.append}"`, values unchanged. -/
def evaluate (s : EvaluateDataset δ α) (model_result : List (String × α)) :
    List (String × α) :=
  model_result.map (fun p => (p.1 ++ s.append, p.2))

/-- `EvaluateDataset.on_train_batch_end(batch, logs)`.  `model_eval` is the
outcome of the external `self.model.evaluate(...)` call, used only if the
cycle fires.  If `freq_batches` is `None` the call returns immediately;
otherwise `batches_seen % freq_batches` is computed (floor-mod; modulo by
zero raises `ZeroDivisionError`), on zero the evaluation runs (a failure
propagates uncaught, aborting the call before any mutation) and its suffixed
result is appended to `_results_batches`; finally `batches_seen` is
incremented by 1. -/
def on_train_batch_end (model_eval : Except ε (List (String × α)))
    (s : EvaluateDataset δ α) (batch : Int) (logs : Option L) :
    Except (PyExn ε) (EvaluateDataset δ α) :=
  match s.freq_batches with
  | none => .ok s
  | some f =>
    if f = 0 then .error .zeroDivisionError
    else if Int.fmod s.batches_seen f = 0 then
      match model_eval with
      | .error e => .error (.external e)
      | .ok raw =>
        .ok { s with _results_batches := s._results_batches ++ [s.evaluate raw]
                     batches_seen := s.batches_seen + 1 }
    else .ok { s with batches_seen := s.batches_seen + 1 }

/-- `EvaluateDataset.on_epoch_end(batch, logs)`: identical to the batch hook
but keyed on `epochs_seen` / `freq_epochs`, appending to `_results_epochs`. -/
def on_epoch_end (model_eval : Except ε (List (String × α)))
    (s : EvaluateDataset δ α) (batch : Int) (logs : Option L) :
    Except (PyExn ε) (EvaluateDataset δ α) :=
  match s.freq_epochs with
  | none => .ok s
  | some f =>
    if f = 0 then .error .zeroDivisionError
    else if Int.fmod s.epochs_seen f = 0 then
      match model_eval with
      | .error e => .error (.external e)
      | .ok raw =>
        .ok { s with _results_epochs := s._results_epochs ++ [s.evaluate raw]
                     epochs_seen := s.epochs_seen + 1 }
    else .ok { s with epochs_seen := s.epochs_seen + 1 }

/-- `EvaluateDataset._unpack_list_dicts`: folds over the buffered result
dictionaries in order and, for each entry, appends its value to the per-key
list in `res`, creating the key (at the end) on first sight. -/
def _unpack_list_dicts (list_of_dicts : List (List (String × α))) :
    List (String × List α) :=
  list_of_dicts.foldl
    (fun res result => result.foldl (fun r p => dictAppend r p.1 p.2) res) []

/-- Property `EvaluateDataset.results_batches`: raises
`ValueError("No values stored yet.")` when nothing has been buffered,
otherwise unpacks the buffer into a per-metric table. -/
def results_batches (s : EvaluateDataset δ α) :
    Except (PyExn Empty) (List (String × List α)) :=
  if s._results_batches.length = 0 then
    .error (.valueError "No values stored yet.")
  else .ok (_unpack_list_dicts s._results_batches)

/-- Property `EvaluateDataset.results_epochs`: same as `results_batches` for
the epoch buffer. -/
def results_epochs (s : EvaluateDataset δ α) :
    Except (PyExn Empty) (List (String × List α)) :=
  if s._results_epochs.length = 0 then
    .error (.valueError "No values stored yet.")
  else .ok (_unpack_list_dicts s._results_epochs)

end EvaluateDataset

/-- Delivers `n` batch-end notifications (indices `0 … n-1`, in order) to the
evaluator, the `i`-th with a *succeeding* external evaluation returning
`ext i`; the batch ordinal passed is the index and logs are absent. -/
def runBatches (ext : Nat → List (String × α)) :
    Nat → EvaluateDataset δ α → Except (PyExn Empty) (EvaluateDataset δ α)
  | 0, s => .ok s
  | n + 1, s =>
    match runBatches ext n s with
    | .error e => .error e
    | .ok s' =>
      EvaluateDataset.on_train_batch_end (.ok (ext n)) s' (Int.ofNat n)
        (none : Option Unit)

/-- Delivers `n` epoch-end notifications, each with a succeeding external
evaluation, analogously to `runBatches`. -/
def runEpochs (ext : Nat → List (String × α)) :
    Nat → EvaluateDataset δ α → Except (PyExn Empty) (EvaluateDataset δ α)
  | 0, s => .ok s
  | n + 1, s =>
    match runEpochs ext n s with
    | .error e => .error e
    | .ok s' =>
      EvaluateDataset.on_epoch_end (.ok (ext n)) s' (Int.ofNat n)
        (none : Option Unit)

/-- Number of notification indices in `k, k+1, …, k+n-1` whose value is
divisible by `F`, i.e. the number of cycles fired by `n` notifications
starting from counter value `k`. -/
def countFires (F k : Nat) : Nat → Nat
  | 0 => 0
  | n + 1 => countFires F k n + (if (k + n) % F = 0 then 1 else 0)

lemma countFires_zero_steps (F k : Nat) : countFires F k 0 = 0 := rfl

lemma countFires_succ (F k n : Nat) :
    countFires F k (n + 1) =
      countFires F k n + (if (k + n) % F = 0 then 1 else 0) := rfl

/-- Values of key `k` collected, in order, from exactly those dictionaries of
`l` that contain `k`. -/
def collectKey (k : String) (l : List (List (String × α))) : List α :=
  l.filterMap (lookupKey k)

/-- One dictionary processed by the inner loop of `_unpack_list_dicts`. -/
def unpackStep (res : List (String × List α)) (d : List (String × α)) :
    List (String × List α) :=
  d.foldl (fun r p => dictAppend r p.1 p.2) res

/-- `_unpack_list_dicts` generalized to an arbitrary starting accumulator. -/
def unpackFrom (res : List (String × List α)) (l : List (List (String × α))) :
    List (String × List α) :=
  l.foldl unpackStep res

lemma unpack_eq_unpackFrom (l : List (List (String × α))) :
    EvaluateDataset._unpack_list_dicts l = unpackFrom [] l := rfl

lemma lookupKey_nil (k : String) : lookupKey k ([] : List (String × α)) = none := rfl

lemma lookupKey_cons (k a : String) (b : α) (rest : List (String × α)) :
    lookupKey k ((a, b) :: rest) = if a = k then some b else lookupKey k rest := rfl

lemma keys_cons (a : String) (b : α) (rest : List (String × α)) :
    keys ((a, b) :: rest) = a :: keys rest := rfl

lemma lookupKey_eq_none_iff (k : String) (l : List (String × α)) :
    lookupKey k l = none ↔ k ∉ keys l := by
  induction l with
  | nil => simp [lookupKey_nil, keys]
  | cons p rest ih =>
    obtain ⟨a, b⟩ := p
    rw [lookupKey_cons, keys_cons]
    by_cases h : a = k
    · subst h
      simp
    · rw [if_neg h, ih, List.mem_cons]
      constructor
      · intro hn hor
        rcases hor with h1 | h2
        · exact h h1.symm
        · exact hn h2
      · intro hn h2
        exact hn (Or.inr h2)

lemma lookupKey_isSome_iff (k : String) (l : List (String × α)) :
    (lookupKey k l).isSome = true ↔ k ∈ keys l := by
  constructor
  · intro h
    by_contra hk
    rw [(lookupKey_eq_none_iff k l).mpr hk] at h
    simp at h
  · intro hk
    cases hcase : lookupKey k l with
    | none => exact absurd hk ((lookupKey_eq_none_iff k l).mp hcase)
    | some v => simp

lemma lookupKey_append_of_none {k : String} {l1 : List (String × α)}
    (l2 : List (String × α)) (h : lookupKey k l1 = none) :
    lookupKey k (l1 ++ l2) = lookupKey k l2 := by
  induction l1 with
  | nil => simp
  | cons p rest ih =>
    obtain ⟨a, b⟩ := p
    rw [lookupKey_cons] at h
    by_cases hp : a = k
    · rw [if_pos hp] at h
      exact absurd h (by simp)
    · rw [if_neg hp] at h
      rw [List.cons_append, lookupKey_cons, if_neg hp]
      exact ih h

lemma lookupKey_append_of_some {k : String} {l1 : List (String × α)} {v : α}
    (l2 : List (String × α)) (h : lookupKey k l1 = some v) :
    lookupKey k (l1 ++ l2) = some v := by
  induction l1 with
  | nil => rw [lookupKey_nil] at h; exact absurd h (by simp)
  | cons p rest ih =>
    obtain ⟨a, b⟩ := p
    rw [lookupKey_cons] at h
    rw [List.cons_append, lookupKey_cons]
    by_cases hp : a = k
    · rwa [if_pos hp] at h ⊢
    · rw [if_neg hp] at h ⊢
      exact ih h

lemma setKey_nil (k : String) (v : α) : setKey k v [] = [] := rfl

lemma setKey_cons (k : String) (v : α) (a : String) (b : α)
    (rest : List (String × α)) :
    setKey k v ((a, b) :: rest) =
      if a = k then (k, v) :: rest else (a, b) :: setKey k v rest := rfl

lemma lookupKey_setKey_self (k : String) (v : α) (l : List (String × α)) :
    lookupKey k (setKey k v l) = (lookupKey k l).map (fun _ => v) := by
  induction l with
  | nil => simp [setKey_nil, lookupKey_nil]
  | cons p rest ih =>
    obtain ⟨a, b⟩ := p
    rw [setKey_cons, lookupKey_cons]
    by_cases hp : a = k
    · rw [if_pos hp, if_pos hp, lookupKey_cons, if_pos rfl]
      rfl
    · rw [if_neg hp, if_neg hp, lookupKey_cons, if_neg hp, ih]

lemma lookupKey_setKey_ne {k' k : String} (hne : k' ≠ k) (v : α)
    (l : List (String × α)) :
    lookupKey k' (setKey k v l) = lookupKey k' l := by
  induction l with
  | nil => rfl
  | cons p rest ih =>
    obtain ⟨a, b⟩ := p
    rw [setKey_cons, lookupKey_cons]
    by_cases hp : a = k
    · rw [if_pos hp, lookupKey_cons, if_neg (fun h => hne h.symm),
        if_neg (hp ▸ (fun h => hne h.symm))]
    · rw [if_neg hp, lookupKey_cons, ih]

lemma keys_setKey (k : String) (v : α) (l : List (String × α)) :
    keys (setKey k v l) = keys l := by
  induction l with
  | nil => rfl
  | cons p rest ih =>
    obtain ⟨a, b⟩ := p
    rw [setKey_cons, keys_cons]
    by_cases hp : a = k
    · rw [if_pos hp, keys_cons, hp]
    · rw [if_neg hp, keys_cons, ih]

lemma lookupKey_dictAppend (k' k : String) (v : α)
    (res : List (String × List α)) :
    lookupKey k' (dictAppend res k v) =
      if k' = k then some ((lookupKey k res).getD [] ++ [v])
      else lookupKey k' res := by
  unfold dictAppend
  cases hres : lookupKey k res with
  | none =>
    by_cases hk : k' = k
    · subst hk
      rw [lookupKey_append_of_none _ hres, hres]
      simp [lookupKey]
    · simp only [hk, if_false]
      cases hres' : lookupKey k' res with
      | none =>
        rw [lookupKey_append_of_none _ hres', lookupKey_cons,
          if_neg (fun h => hk h.symm), lookupKey_nil]
      | some w => rw [lookupKey_append_of_some _ hres']
  | some vs =>
    by_cases hk : k' = k
    · subst hk
      rw [lookupKey_setKey_self, hres]
      simp
    · simp [hk, lookupKey_setKey_ne hk]

lemma keys_nodup_dictAppend {res : List (String × List α)}
    (h : (keys res).Nodup) (k : String) (v : α) :
    (keys (dictAppend res k v)).Nodup := by
  unfold dictAppend
  cases hres : lookupKey k res with
  | none =>
    have hk : k ∉ keys res := (lookupKey_eq_none_iff k res).mp hres
    simp only [keys, List.map_append, List.map_cons, List.map_nil]
    rw [List.nodup_append]
    refine ⟨h, List.nodup_singleton k, ?_⟩
    intro a ha hb
    simp only [List.mem_singleton] at hb
    exact hk (hb ▸ ha)
  | some vs =>
    rw [keys_setKey]
    exact h

lemma unpackStep_nil (res : List (String × List α)) : unpackStep res [] = res := rfl

lemma unpackStep_cons (res : List (String × List α)) (a : String) (b : α)
    (rest : List (String × α)) :
    unpackStep res ((a, b) :: rest) = unpackStep (dictAppend res a b) rest := rfl

lemma lookupKey_unpackStep_of_none {k : String} {d : List (String × α)}
    (h : lookupKey k d = none) (res : List (String × List α)) :
    lookupKey k (unpackStep res d) = lookupKey k res := by
  induction d generalizing res with
  | nil => rfl
  | cons p rest ih =>
    obtain ⟨a, b⟩ := p
    rw [lookupKey_cons] at h
    by_cases ha : a = k
    · rw [if_pos ha] at h
      exact absurd h (by simp)
    · rw [if_neg ha] at h
      rw [unpackStep_cons, ih h, lookupKey_dictAppend,
        if_neg (fun hc => ha hc.symm)]

lemma lookupKey_unpackStep_of_some {k : String} {d : List (String × α)} {v : α}
    (hd : (keys d).Nodup) (h : lookupKey k d = some v)
    (res : List (String × List α)) :
    lookupKey k (unpackStep res d) =
      some ((lookupKey k res).getD [] ++ [v]) := by
  induction d generalizing res with
  | nil => rw [lookupKey_nil] at h; exact absurd h (by simp)
  | cons p rest ih =>
    obtain ⟨a, b⟩ := p
    rw [keys_cons, List.nodup_cons] at hd
    rw [lookupKey_cons] at h
    rw [unpackStep_cons]
    by_cases ha : a = k
    · rw [if_pos ha] at h
      have hbv : b = v := Option.some.inj h
      have hnone : lookupKey k rest = none :=
        (lookupKey_eq_none_iff k rest).mpr (ha ▸ hd.1)
      rw [lookupKey_unpackStep_of_none hnone, lookupKey_dictAppend,
        if_pos ha.symm, ha, hbv]
    · rw [if_neg ha] at h
      rw [ih hd.2 h, lookupKey_dictAppend, if_neg (fun hc => ha hc.symm)]

lemma keys_nodup_unpackStep {res : List (String × List α)}
    (h : (keys res).Nodup) (d : List (String × α)) :
    (keys (unpackStep res d)).Nodup := by
  induction d generalizing res with
  | nil => exact h
  | cons p rest ih =>
    have hstep : unpackStep res (p :: rest) =
        unpackStep (dictAppend res p.1 p.2) rest := rfl
    rw [hstep]
    exact ih (keys_nodup_dictAppend h p.1 p.2)

lemma collectKey_nil (k : String) :
    collectKey k ([] : List (List (String × α))) = [] := rfl

lemma collectKey_cons_of_none {k : String} {d : List (String × α)}
    (h : lookupKey k d = none) (rest : List (List (String × α))) :
    collectKey k (d :: rest) = collectKey k rest := by
  simp [collectKey, List.filterMap_cons, h]

lemma collectKey_cons_of_some {k : String} {d : List (String × α)} {v : α}
    (h : lookupKey k d = some v) (rest : List (List (String × α))) :
    collectKey k (d :: rest) = v :: collectKey k rest := by
  simp [collectKey, List.filterMap_cons, h]

lemma unpackFrom_nil (res : List (String × List α)) :
    unpackFrom res ([] : List (List (String × α))) = res := rfl

lemma unpackFrom_cons (res : List (String × List α)) (d : List (String × α))
    (rest : List (List (String × α))) :
    unpackFrom res (d :: rest) = unpackFrom (unpackStep res d) rest := rfl

lemma lookupKey_unpackFrom_of_nil {k : String} {l : List (List (String × α))}
    (hcol : collectKey k l = []) (res : List (String × List α)) :
    lookupKey k (unpackFrom res l) = lookupKey k res := by
  induction l generalizing res with
  | nil => rfl
  | cons d rest ih =>
    cases hkd : lookupKey k d with
    | none =>
      rw [collectKey_cons_of_none hkd] at hcol
      rw [unpackFrom_cons, ih hcol (unpackStep res d),
        lookupKey_unpackStep_of_none hkd]
    | some v =>
      rw [collectKey_cons_of_some hkd] at hcol
      exact absurd hcol (by simp)

lemma lookupKey_unpackFrom_of_ne {k : String} {l : List (List (String × α))}
    (hl : ∀ d ∈ l, (keys d).Nodup) (hcol : collectKey k l ≠ [])
    (res : List (String × List α)) :
    lookupKey k (unpackFrom res l) =
      some ((lookupKey k res).getD [] ++ collectKey k l) := by
  induction l generalizing res with
  | nil => exact absurd (collectKey_nil k) hcol
  | cons d rest ih =>
    have hd : (keys d).Nodup := hl d (List.mem_cons_self d rest)
    have hrest : ∀ d' ∈ rest, (keys d').Nodup :=
      fun d' hd' => hl d' (List.mem_cons_of_mem d hd')
    rw [unpackFrom_cons]
    cases hkd : lookupKey k d with
    | none =>
      have hc : collectKey k (d :: rest) = collectKey k rest :=
        collectKey_cons_of_none hkd rest
      rw [hc] at hcol ⊢
      rw [ih hrest hcol, lookupKey_unpackStep_of_none hkd]
    | some v =>
      have hc : collectKey k (d :: rest) = v :: collectKey k rest :=
        collectKey_cons_of_some hkd rest
      rw [hc]
      by_cases hre : collectKey k rest = []
      · rw [lookupKey_unpackFrom_of_nil hre, lookupKey_unpackStep_of_some hd hkd,
          hre]
      · rw [ih hrest hre, lookupKey_unpackStep_of_some hd hkd]
        simp

lemma keys_nodup_unpackFrom {res : List (String × List α)}
    (h : (keys res).Nodup) (l : List (List (String × α))) :
    (keys (unpackFrom res l)).Nodup := by
  induction l generalizing res with
  | nil => exact h
  | cons d rest ih => exact ih (keys_nodup_unpackStep h d)

/-- Looking up a key that no buffered dictionary contains yields `none`. -/
lemma lookupKey_unpack_of_nil {k : String} {l : List (List (String × α))}
    (hcol : collectKey k l = []) :
    lookupKey k (EvaluateDataset._unpack_list_dicts l) = none := by
  rw [unpack_eq_unpackFrom, lookupKey_unpackFrom_of_nil hcol, lookupKey_nil]

/-- Looking up a key that occurs in at least one buffered dictionary (all of
them having unique keys) yields exactly the values collected, in order, from
the dictionaries that contain it. -/
lemma lookupKey_unpack_of_ne {k : String} {l : List (List (String × α))}
    (hl : ∀ d ∈ l, (keys d).Nodup) (hcol : collectKey k l ≠ []) :
    lookupKey k (EvaluateDataset._unpack_list_dicts l) =
      some (collectKey k l) := by
  rw [unpack_eq_unpackFrom, lookupKey_unpackFrom_of_ne hl hcol, lookupKey_nil]
  rfl

lemma keys_nodup_unpack (l : List (List (String × α))) :
    (keys (EvaluateDataset._unpack_list_dicts l)).Nodup := by
  rw [unpack_eq_unpackFrom]
  exact keys_nodup_unpackFrom (by simp [keys]) l

lemma lookupKey_of_mem {t : List (String × α)} (ht : (keys t).Nodup)
    {k : String} {v : α} (hmem : (k, v) ∈ t) : lookupKey k t = some v := by
  induction t with
  | nil => simp at hmem
  | cons p rest ih =>
    simp only [keys, List.map_cons, List.nodup_cons] at ht
    rcases List.mem_cons.mp hmem with h | h
    · rw [← h]
      simp [lookupKey]
    · have hk : p.1 ≠ k := by
        intro hpk
        exact ht.1 (hpk ▸ (List.mem_map.mpr ⟨(k, v), h, rfl⟩))
      simp only [lookupKey, hk, if_false]
      exact ih ht.2 h

lemma length_filterMap_of_isSome {f : α → Option L} {l : List α}
    (h : ∀ a ∈ l, (f a).isSome = true) :
    (l.filterMap f).length = l.length := by
  induction l with
  | nil => simp
  | cons a rest ih =>
    have ha := h a (List.mem_cons_self a rest)
    rcases Option.isSome_iff_exists.mp ha with ⟨v, hv⟩
    rw [List.filterMap_cons, hv]
    simp only [List.length_cons]
    rw [ih (fun a' ha' => h a' (List.mem_cons_of_mem a ha'))]

/-! ### Single-notification behavior -/

lemma batch_end_disabled (model_eval : Except ε (List (String × α)))
    {s : EvaluateDataset δ α} (h : s.freq_batches = none) (b : Int)
    (lg : Option L) :
    EvaluateDataset.on_train_batch_end model_eval s b lg = .ok s := by
  unfold EvaluateDataset.on_train_batch_end
  rw [h]

lemma epoch_end_disabled (model_eval : Except ε (List (String × α)))
    {s : EvaluateDataset δ α} (h : s.freq_epochs = none) (b : Int)
    (lg : Option L) :
    EvaluateDataset.on_epoch_end model_eval s b lg = .ok s := by
  unfold EvaluateDataset.on_epoch_end
  rw [h]

lemma batch_end_fire (raw : List (String × α)) {s : EvaluateDataset δ α}
    {f : Int} (hfreq : s.freq_batches = some f) (hf : f ≠ 0)
    (hfire : Int.fmod s.batches_seen f = 0) (b : Int) (lg : Option L) :
    EvaluateDataset.on_train_batch_end (ε := ε) (.ok raw) s b lg =
      .ok { s with _results_batches := s._results_batches ++ [s.evaluate raw]
                   batches_seen := s.batches_seen + 1 } := by
  unfold EvaluateDataset.on_train_batch_end
  rw [hfreq]
  simp [hf, hfire]

lemma batch_end_skip (model_eval : Except ε (List (String × α)))
    {s : EvaluateDataset δ α} {f : Int} (hfreq : s.freq_batches = some f)
    (hf : f ≠ 0) (hfire : Int.fmod s.batches_seen f ≠ 0) (b : Int)
    (lg : Option L) :
    EvaluateDataset.on_train_batch_end model_eval s b lg =
      .ok { s with batches_seen := s.batches_seen + 1 } := by
  unfold EvaluateDataset.on_train_batch_end
  rw [hfreq]
  simp only [hf, if_false, hfire]

lemma batch_end_fail (e : ε) {s : EvaluateDataset δ α} {f : Int}
    (hfreq : s.freq_batches = some f) (hf : f ≠ 0)
    (hfire : Int.fmod s.batches_seen f = 0) (b : Int) (lg : Option L) :
    EvaluateDataset.on_train_batch_end (α := α) (.error e) s b lg =
      .error (.external e) := by
  unfold EvaluateDataset.on_train_batch_end
  rw [hfreq]
  simp [hf, hfire]

lemma epoch_end_fire (raw : List (String × α)) {s : EvaluateDataset δ α}
    {f : Int} (hfreq : s.freq_epochs = some f) (hf : f ≠ 0)
    (hfire : Int.fmod s.epochs_seen f = 0) (b : Int) (lg : Option L) :
    EvaluateDataset.on_epoch_end (ε := ε) (.ok raw) s b lg =
      .ok { s with _results_epochs := s._results_epochs ++ [s.evaluate raw]
                   epochs_seen := s.epochs_seen + 1 } := by
  unfold EvaluateDataset.on_epoch_end
  rw [hfreq]
  simp [hf, hfire]

lemma epoch_end_skip (model_eval : Except ε (List (String × α)))
    {s : EvaluateDataset δ α} {f : Int} (hfreq : s.freq_epochs = some f)
    (hf : f ≠ 0) (hfire : Int.fmod s.epochs_seen f ≠ 0) (b : Int)
    (lg : Option L) :
    EvaluateDataset.on_epoch_end model_eval s b lg =
      .ok { s with epochs_seen := s.epochs_seen + 1 } := by
  unfold EvaluateDataset.on_epoch_end
  rw [hfreq]
  simp only [hf, if_false, hfire]

lemma epoch_end_fail (e : ε) {s : EvaluateDataset δ α} {f : Int}
    (hfreq : s.freq_epochs = some f) (hf : f ≠ 0)
    (hfire : Int.fmod s.epochs_seen f = 0) (b : Int) (lg : Option L) :
    EvaluateDataset.on_epoch_end (α := α) (.error e) s b lg =
      .error (.external e) := by
  unfold EvaluateDataset.on_epoch_end
  rw [hfreq]
  simp [hf, hfire]

/-! ### Trace behavior over many notifications -/

lemma fmod_natCast (a b : Nat) :
    Int.fmod (a : Int) (b : Int) = ((a % b : Nat) : Int) := by
  rw [Int.fmod_eq_emod _ (by positivity)]
  exact_mod_cast (Int.natCast_mod a b).symm

lemma runBatches_spec (ext : Nat → List (String × α)) {F : Nat} (hF : 0 < F) :
    ∀ (n : Nat) (s : EvaluateDataset δ α) (k : Nat),
      s.freq_batches = some (F : Int) → s.batches_seen = (k : Int) →
      ∃ s', runBatches ext n s = .ok s'
        ∧ s'.freq_batches = some (F : Int)
        ∧ s'.batches_seen = ((k + n : Nat) : Int)
        ∧ s'._results_batches.length
            = s._results_batches.length + countFires F k n := by
  intro n
  induction n with
  | zero =>
    intro s k hfreq hseen
    exact ⟨s, rfl, hfreq, by simpa using hseen, by simp [countFires]⟩
  | succ n ih =>
    intro s k hfreq hseen
    obtain ⟨s', hrun, hfreq', hseen', hlen'⟩ := ih s k hfreq hseen
    have hF0 : (F : Int) ≠ 0 := by
      omega
    have hfm : Int.fmod s'.batches_seen (F : Int) = (((k + n) % F : Nat) : Int) := by
      rw [hseen', fmod_natCast]
    have hstep : runBatches ext (n + 1) s =
        EvaluateDataset.on_train_batch_end (.ok (ext n)) s' (Int.ofNat n)
          (none : Option Unit) := by
      rw [runBatches, hrun]
    by_cases hfire : (k + n) % F = 0
    · refine ⟨{ s' with
          _results_batches := s'._results_batches ++ [s'.evaluate (ext n)]
          batches_seen := s'.batches_seen + 1 }, ?_, ?_, ?_, ?_⟩
      · rw [hstep, batch_end_fire (ext n) hfreq' hF0 (by rw [hfm, hfire]; rfl)]
      · exact hfreq'
      · show s'.batches_seen + 1 = ((k + (n + 1) : Nat) : Int)
        rw [hseen']
        push_cast
        ring
      · show (s'._results_batches ++ [s'.evaluate (ext n)]).length
            = s._results_batches.length + countFires F k (n + 1)
        rw [List.length_append, hlen', countFires_succ, if_pos hfire,
          List.length_singleton]
        omega
    · refine ⟨{ s' with batches_seen := s'.batches_seen + 1 }, ?_, ?_, ?_, ?_⟩
      · rw [hstep, batch_end_skip (.ok (ext n)) hfreq' hF0
          (by rw [hfm]; exact_mod_cast hfire)]
      · exact hfreq'
      · show s'.batches_seen + 1 = ((k + (n + 1) : Nat) : Int)
        rw [hseen']
        push_cast
        ring
      · show s'._results_batches.length
            = s._results_batches.length + countFires F k (n + 1)
        rw [hlen', countFires_succ, if_neg hfire]
        omega

lemma runEpochs_spec (ext : Nat → List (String × α)) {F : Nat} (hF : 0 < F) :
    ∀ (n : Nat) (s : EvaluateDataset δ α) (k : Nat),
      s.freq_epochs = some (F : Int) → s.epochs_seen = (k : Int) →
      ∃ s', runEpochs ext n s = .ok s'
        ∧ s'.freq_epochs = some (F : Int)
        ∧ s'.epochs_seen = ((k + n : Nat) : Int)
        ∧ s'._results_epochs.length
            = s._results_epochs.length + countFires F k n := by
  intro n
  induction n with
  | zero =>
    intro s k hfreq hseen
    exact ⟨s, rfl, hfreq, by simpa using hseen, by simp [countFires]⟩
  | succ n ih =>
    intro s k hfreq hseen
    obtain ⟨s', hrun, hfreq', hseen', hlen'⟩ := ih s k hfreq hseen
    have hF0 : (F : Int) ≠ 0 := by
      omega
    have hfm : Int.fmod s'.epochs_seen (F : Int) = (((k + n) % F : Nat) : Int) := by
      rw [hseen', fmod_natCast]
    have hstep : runEpochs ext (n + 1) s =
        EvaluateDataset.on_epoch_end (.ok (ext n)) s' (Int.ofNat n)
          (none : Option Unit) := by
      rw [runEpochs, hrun]
    by_cases hfire : (k + n) % F = 0
    · refine ⟨{ s' with
          _results_epochs := s'._results_epochs ++ [s'.evaluate (ext n)]
          epochs_seen := s'.epochs_seen + 1 }, ?_, ?_, ?_, ?_⟩
      · rw [hstep, epoch_end_fire (ext n) hfreq' hF0 (by rw [hfm, hfire]; rfl)]
      · exact hfreq'
      · show s'.epochs_seen + 1 = ((k + (n + 1) : Nat) : Int)
        rw [hseen']
        push_cast
        ring
      · show (s'._results_epochs ++ [s'.evaluate (ext n)]).length
            = s._results_epochs.length + countFires F k (n + 1)
        rw [List.length_append, hlen', countFires_succ, if_pos hfire,
          List.length_singleton]
        omega
    · refine ⟨{ s' with epochs_seen := s'.epochs_seen + 1 }, ?_, ?_, ?_, ?_⟩
      · rw [hstep, epoch_end_skip (.ok (ext n)) hfreq' hF0
          (by rw [hfm]; exact_mod_cast hfire)]
      · exact hfreq'
      · show s'.epochs_seen + 1 = ((k + (n + 1) : Nat) : Int)
        rw [hseen']
        push_cast
        ring
      · show s'._results_epochs.length
            = s._results_epochs.length + countFires F k (n + 1)
        rw [hlen', countFires_succ, if_neg hfire]
        omega

lemma countFires_eq_filter (F : Nat) :
    ∀ B, countFires F 0 B = ((List.range B).filter (fun i => i % F == 0)).length
  | 0 => rfl
  | B + 1 => by
    rw [countFires_succ, countFires_eq_filter F B, List.range_succ,
      List.filter_append, Nat.zero_add]
    by_cases h : B % F = 0
    · simp [h]
    · simp [h]

lemma countFires_formula (F : Nat) (hF : 0 < F) :
    ∀ B, countFires F 0 B = if B = 0 then 0 else (B - 1) / F + 1
  | 0 => rfl
  | B + 1 => by
    rw [countFires_succ, countFires_formula F hF B, Nat.zero_add]
    cases B with
    | zero => simp
    | succ m =>
      simp only [Nat.succ_ne_zero, if_false, Nat.add_sub_cancel]
      rw [Nat.succ_div]
      by_cases hd : F ∣ (m + 1)
      · rw [if_pos hd, if_pos (Nat.mod_eq_zero_of_dvd hd)]
      · rw [if_neg hd, if_neg (fun hc => hd (Nat.dvd_of_mod_eq_zero hc))]

/-- Every entry of the unpacked table has one value per buffered dictionary,
provided all buffered dictionaries have the same key set (each with unique
keys). -/
lemma unpack_entry_length {l : List (List (String × α))} {K : List String}
    (hK : ∀ d ∈ l,
      (keys d).Nodup ∧ (∀ k ∈ keys d, k ∈ K) ∧ ∀ k ∈ K, k ∈ keys d)
    {k : String} {vs : List α}
    (hmem : (k, vs) ∈ EvaluateDataset._unpack_list_dicts l) :
    vs.length = l.length := by
  have hnd : ∀ d ∈ l, (keys d).Nodup := fun d hd => (hK d hd).1
  have hlk : lookupKey k (EvaluateDataset._unpack_list_dicts l) = some vs :=
    lookupKey_of_mem (keys_nodup_unpack l) hmem
  by_cases hcol : collectKey k l = []
  · rw [lookupKey_unpack_of_nil hcol] at hlk
    exact absurd hlk (by simp)
  · rw [lookupKey_unpack_of_ne hnd hcol] at hlk
    have hvs : vs = collectKey k l := (Option.some.inj hlk).symm
    have hex : ∃ d ∈ l, ¬ lookupKey k d = none := by
      by_contra hall
      push_neg at hall
      exact hcol (List.filterMap_eq_nil_iff.mpr hall)
    obtain ⟨d0, hd0, hlk0⟩ := hex
    have hk0 : k ∈ keys d0 := by
      by_contra hk0
      exact hlk0 ((lookupKey_eq_none_iff k d0).mpr hk0)
    have hkK : k ∈ K := (hK d0 hd0).2.1 k hk0
    have hall : ∀ d ∈ l, (lookupKey k d).isSome = true := fun d hd =>
      (lookupKey_isSome_iff k d).mpr ((hK d hd).2.2 k hkK)
    rw [hvs]
    exact length_filterMap_of_isSome hall

/-! ### Concrete sample evaluators used as test inputs -/

/-- Fresh evaluator with both axes disabled. -/
def disabledState : EvaluateDataset Unit Int :=
  { dataset := (), freq_epochs := none, freq_batches := none, append := "",
    batches_seen := 0, epochs_seen := 0, _results_batches := [],
    _results_epochs := [] }

/-- Fresh evaluator with both frequencies 1. -/
def enabledState : EvaluateDataset Unit Int :=
  { dataset := (), freq_epochs := some 1, freq_batches := some 1, append := "",
    batches_seen := 0, epochs_seen := 0, _results_batches := [],
    _results_epochs := [] }

/-- `enabledState` after one firing batch notification. -/
def enabledStateB : EvaluateDataset Unit Int :=
  { enabledState with _results_batches := [[]], batches_seen := 1 }

/-- `enabledState` after one firing epoch notification. -/
def enabledStateE : EvaluateDataset Unit Int :=
  { enabledState with _results_epochs := [[]], epochs_seen := 1 }

/-- Fresh evaluator with both frequencies 1 and a nonempty suffix. -/
def suffixState : EvaluateDataset Unit Int :=
  { dataset := (), freq_epochs := some 1, freq_batches := some 1,
    append := "_X", batches_seen := 0, epochs_seen := 0,
    _results_batches := [], _results_epochs := [] }

/-- Fresh evaluator with both frequencies 5. -/
def fresh5 : EvaluateDataset Unit Int :=
  { dataset := (), freq_epochs := some 5, freq_batches := some 5, append := "",
    batches_seen := 0, epochs_seen := 0, _results_batches := [],
    _results_epochs := [] }

/-- Evaluator whose buffers hold two single-metric dictionaries each. -/
def tableState : EvaluateDataset Unit Int :=
  { dataset := (), freq_epochs := some 1, freq_batches := some 1, append := "",
    batches_seen := 2, epochs_seen := 2,
    _results_batches := [[("loss", 1)], [("loss", 2)]],
    _results_epochs := [[("loss", 3)], [("loss", 4)]] }

/-- Two dictionaries with differing key sets. -/
def mixedDicts : List (List (String × Int)) :=
  [[("a", 1)], [("a", 2), ("b", 3)]]

/-- Loss values returned by the external evaluation in the demo scenario. -/
def lossVals : List Rat := [-0.85, -0.90, -0.89, -0.91]

/-- External evaluation outcomes in the demo scenario: on the cycle fired at
notification index `i` (a multiple of 5) the model reports the next loss. -/
def extScenario : Nat → List (String × Rat) := fun i =>
  [("loss", lossVals.getD (i / 5) 0)]

/-- Fresh evaluator of the demo scenario: batch frequency 5, suffix
`"_TID2013"`, epoch axis disabled. -/
def scenarioState : EvaluateDataset Unit Rat :=
  { dataset := (), freq_epochs := none, freq_batches := some 5,
    append := "_TID2013", batches_seen := 0, epochs_seen := 0,
    _results_batches := [], _results_epochs := [] }

/-! ### The claims -/

/-- C1: for every positive frequency F on the batch axis and B batch-end
notifications delivered to a freshly constructed evaluator with every
evaluation call succeeding, the number of entries appended to the batch
result buffer equals the number of notification indices `i < B` with
`i % F = 0` (the cycles fire exactly on the notifications whose
pre-increment counter value is divisible by F, i.e. indices 0, F, 2F, …),
and that number equals `(B-1)/F + 1` for `B ≥ 1` and `0` for `B = 0`; the
same holds on the epoch axis. -/
theorem C1_cycle_count {δ α : Type} (ext : Nat → List (String × α)) (F B : Nat)
    (s : EvaluateDataset δ α) (hF : 0 < F)
    (hfreq : s.freq_batches = some (F : Int)) (hseen : s.batches_seen = 0)
    (hbuf : s._results_batches = [])
    (extE : Nat → List (String × α)) (FE BE : Nat) (t : EvaluateDataset δ α)
    (hFE : 0 < FE) (hfreqE : t.freq_epochs = some (FE : Int))
    (hseenE : t.epochs_seen = 0) (hbufE : t._results_epochs = []) :
    ((runBatches ext B s).map (fun u => u._results_batches.length)
        = .ok (((List.range B).filter (fun i => i % F == 0)).length)
      ∧ (runBatches ext B s).map (fun u => u._results_batches.length)
        = .ok (if B = 0 then 0 else (B - 1) / F + 1))
    ∧ ((runEpochs extE BE t).map (fun u => u._results_epochs.length)
        = .ok (((List.range BE).filter (fun i => i % FE == 0)).length)
      ∧ (runEpochs extE BE t).map (fun u => u._results_epochs.length)
        = .ok (if BE = 0 then 0 else (BE - 1) / FE + 1)) := by
  obtain ⟨s', hrun, _, _, hlen⟩ :=
    runBatches_spec ext hF B s 0 hfreq (by simp [hseen])
  rw [hbuf] at hlen
  simp only [List.length_nil, Nat.zero_add] at hlen
  obtain ⟨t', hrunE, _, _, hlenE⟩ :=
    runEpochs_spec extE hFE BE t 0 hfreqE (by simp [hseenE])
  rw [hbufE] at hlenE
  simp only [List.length_nil, Nat.zero_add] at hlenE
  refine ⟨⟨?_, ?_⟩, ?_, ?_⟩
  · rw [hrun]
    show Except.ok s'._results_batches.length = _
    rw [hlen, countFires_eq_filter]
  · rw [hrun]
    show Except.ok s'._results_batches.length = _
    rw [hlen, countFires_formula F hF]
  · rw [hrunE]
    show Except.ok t'._results_epochs.length = _
    rw [hlenE, countFires_eq_filter]
  · rw [hrunE]
    show Except.ok t'._results_epochs.length = _
    rw [hlenE, countFires_formula FE hFE]

/-- C1 witness: frequency 5, 12 notifications on each axis: exactly 3 cycles
fire (indices 0, 5, 10). -/
theorem C1_cycle_count_witness :
    (runBatches (fun _ => ([] : List (String × Int))) 12 fresh5).map
        (fun u => u._results_batches.length) = .ok 3
    ∧ (runEpochs (fun _ => ([] : List (String × Int))) 12 fresh5).map
        (fun u => u._results_epochs.length) = .ok 3 := by
  have h := C1_cycle_count (fun _ => ([] : List (String × Int))) 5 12 fresh5
    (by decide) rfl rfl rfl (fun _ => []) 5 12 fresh5 (by decide) rfl rfl rfl
  exact ⟨h.1.2, h.2.2⟩

/-- C2 counterexample: constructing with `frequency_by_batch = 0` (and also
with `-1`) does not fail — `__init__` performs no validation and returns a
normal object, contradicting the claimed `ConfigurationError`. -/
theorem C2_construction_counterexample :
    EvaluateDataset.init () (none : Option Int) (some 0) ""
      = Except.ok { dataset := (), freq_epochs := none, freq_batches := some 0,
                    append := "", batches_seen := 0, epochs_seen := 0,
                    _results_batches := ([] : List (List (String × Int))),
                    _results_epochs := [] }
    ∧ EvaluateDataset.init () (none : Option Int) (some (-1)) ""
      = Except.ok { dataset := (), freq_epochs := none,
                    freq_batches := some (-1),
                    append := "", batches_seen := 0, epochs_seen := 0,
                    _results_batches := ([] : List (List (String × Int))),
                    _results_epochs := [] } :=
  ⟨rfl, rfl⟩

/-- C2 (amended): construction never fails, whatever frequencies are
supplied — no validation is performed (0 and -1 are accepted like any other
value) — and every construction starts with both counters 0 and both result
sequences empty. -/
theorem C2_construction_no_validation {δ α : Type} (d : δ)
    (fe fb : Option Int) (ap : String) :
    EvaluateDataset.init (α := α) d fe fb ap
      = Except.ok { dataset := d, freq_epochs := fe, freq_batches := fb,
                    append := ap, batches_seen := 0, epochs_seen := 0,
                    _results_batches := [], _results_epochs := [] } := rfl

/-- C3 counterexample: with the batch axis disabled, a batch-end
notification leaves `batches_seen` at 0 instead of incrementing it to the
prior value plus 1. -/
theorem C3_increment_counterexample :
    (EvaluateDataset.on_train_batch_end
        (Except.ok ([] : List (String × Int)) : Except Empty _)
        disabledState 0 (none : Option Unit)).map (fun u => u.batches_seen)
      ≠ Except.ok (disabledState.batches_seen + 1) := by
  intro h
  rw [batch_end_disabled _ rfl] at h
  simp [disabledState, Except.map] at h

/-- C3 (amended): when the corresponding axis is enabled and the
notification completes normally, the counter is incremented by exactly 1,
regardless of whether a cycle fired; a disabled axis leaves its counter
unchanged (see the counterexample). -/
theorem C3_counter_increment {δ α ε L : Type}
    (ext : Except ε (List (String × α))) (s s' : EvaluateDataset δ α)
    (b : Int) (lg : Option L) (f : Int) :
    (s.freq_batches = some f →
      EvaluateDataset.on_train_batch_end ext s b lg = .ok s' →
      s'.batches_seen = s.batches_seen + 1)
    ∧ (s.freq_epochs = some f →
      EvaluateDataset.on_epoch_end ext s b lg = .ok s' →
      s'.epochs_seen = s.epochs_seen + 1) := by
  constructor
  · intro hfreq hok
    by_cases hf : f = 0
    · subst hf
      unfold EvaluateDataset.on_train_batch_end at hok
      rw [hfreq] at hok
      simp at hok
    · by_cases hfire : Int.fmod s.batches_seen f = 0
      · cases ext with
        | error e =>
          rw [batch_end_fail e hfreq hf hfire] at hok
          exact absurd hok (by simp)
        | ok raw =>
          rw [batch_end_fire raw hfreq hf hfire] at hok
          rw [← Except.ok.inj hok]
      · rw [batch_end_skip ext hfreq hf hfire] at hok
        rw [← Except.ok.inj hok]
  · intro hfreq hok
    by_cases hf : f = 0
    · subst hf
      unfold EvaluateDataset.on_epoch_end at hok
      rw [hfreq] at hok
      simp at hok
    · by_cases hfire : Int.fmod s.epochs_seen f = 0
      · cases ext with
        | error e =>
          rw [epoch_end_fail e hfreq hf hfire] at hok
          exact absurd hok (by simp)
        | ok raw =>
          rw [epoch_end_fire raw hfreq hf hfire] at hok
          rw [← Except.ok.inj hok]
      · rw [epoch_end_skip ext hfreq hf hfire] at hok
        rw [← Except.ok.inj hok]

/-- C3 witness: with frequency 1 on both axes, one successful notification
per axis takes the respective counter from 0 to 1. -/
theorem C3_counter_increment_witness :
    enabledStateB.batches_seen = enabledState.batches_seen + 1
    ∧ enabledStateE.epochs_seen = enabledState.epochs_seen + 1 :=
  ⟨(C3_counter_increment (Except.ok ([] : List (String × Int)) : Except Empty _)
      enabledState enabledStateB 0 (none : Option Unit) 1).1 rfl rfl,
   (C3_counter_increment (Except.ok ([] : List (String × Int)) : Except Empty _)
      enabledState enabledStateE 0 (none : Option Unit) 1).2 rfl rfl⟩

/-- C4: when an axis is disabled (its frequency is `None`), a notification
on that axis is a complete no-op: it returns successfully with the evaluator
state entirely unchanged — no cycle, no append, no counter change. -/
theorem C4_disabled_noop {δ α ε L : Type}
    (ext : Except ε (List (String × α))) (s : EvaluateDataset δ α) (b : Int)
    (lg : Option L) :
    (s.freq_batches = none →
      EvaluateDataset.on_train_batch_end ext s b lg = .ok s)
    ∧ (s.freq_epochs = none →
      EvaluateDataset.on_epoch_end ext s b lg = .ok s) :=
  ⟨fun h => batch_end_disabled ext h b lg,
   fun h => epoch_end_disabled ext h b lg⟩

/-- C4 witness: the doubly disabled evaluator is returned unchanged by both
notifications. -/
theorem C4_disabled_noop_witness :
    EvaluateDataset.on_train_batch_end
        (Except.ok ([] : List (String × Int)) : Except Empty _)
        disabledState 0 (none : Option Unit) = .ok disabledState
    ∧ EvaluateDataset.on_epoch_end
        (Except.ok ([] : List (String × Int)) : Except Empty _)
        disabledState 0 (none : Option Unit) = .ok disabledState :=
  ⟨(C4_disabled_noop _ disabledState 0 (none : Option Unit)).1 rfl,
   (C4_disabled_noop _ disabledState 0 (none : Option Unit)).2 rfl⟩

/-- C5: an evaluation cycle turns the mapping returned by the external
evaluate operation into a new mapping whose every key is exactly
`rawName ++ label_suffix` with the value unchanged (and conversely every
entry comes from a raw entry this way), and this rewritten dictionary is
what gets appended to the firing axis's result sequence. -/
theorem C5_metric_suffixing {δ α ε L : Type} (s : EvaluateDataset δ α)
    (raw : List (String × α)) (b : Int) (lg : Option L) (f : Int) :
    (∀ n v, (n, v) ∈ s.evaluate raw ↔ ∃ m, (m, v) ∈ raw ∧ n = m ++ s.append)
    ∧ (s.freq_batches = some f → f ≠ 0 → Int.fmod s.batches_seen f = 0 →
        (EvaluateDataset.on_train_batch_end (ε := ε) (.ok raw) s b lg).map
            (fun u => u._results_batches)
          = .ok (s._results_batches ++ [s.evaluate raw]))
    ∧ (s.freq_epochs = some f → f ≠ 0 → Int.fmod s.epochs_seen f = 0 →
        (EvaluateDataset.on_epoch_end (ε := ε) (.ok raw) s b lg).map
            (fun u => u._results_epochs)
          = .ok (s._results_epochs ++ [s.evaluate raw])) := by
  refine ⟨?_, ?_, ?_⟩
  · intro n v
    unfold EvaluateDataset.evaluate
    rw [List.mem_map]
    constructor
    · rintro ⟨⟨m, w⟩, hp, hep⟩
      simp only [Prod.mk.injEq] at hep
      obtain ⟨h1, h2⟩ := hep
      subst h1
      subst h2
      exact ⟨m, hp, rfl⟩
    · rintro ⟨m, hm, hn⟩
      exact ⟨(m, v), hm, by rw [hn]⟩
  · intro h1 h2 h3
    rw [batch_end_fire raw h1 h2 h3]
    rfl
  · intro h1 h2 h3
    rw [epoch_end_fire raw h1 h2 h3]
    rfl

/-- C5 witness: with suffix `"_X"`, the raw result `{"loss": 2}` is stored
as `{"loss_X": 2}` on both axes. -/
theorem C5_metric_suffixing_witness :
    ("loss_X", (2 : Int)) ∈ suffixState.evaluate [("loss", (2 : Int))]
    ∧ (EvaluateDataset.on_train_batch_end (ε := Empty)
          (.ok [("loss", (2 : Int))]) suffixState 0 (none : Option Unit)).map
          (fun u => u._results_batches)
        = .ok ([] ++ [suffixState.evaluate [("loss", (2 : Int))]])
    ∧ (EvaluateDataset.on_epoch_end (ε := Empty)
          (.ok [("loss", (2 : Int))]) suffixState 0 (none : Option Unit)).map
          (fun u => u._results_epochs)
        = .ok ([] ++ [suffixState.evaluate [("loss", (2 : Int))]]) :=
  ⟨((C5_metric_suffixing (ε := Empty) suffixState [("loss", (2 : Int))] 0
      (none : Option Unit) 1).1 "loss_X" 2).mpr ⟨"loss", by decide, rfl⟩,
   (C5_metric_suffixing suffixState [("loss", (2 : Int))] 0
      (none : Option Unit) 1).2.1 rfl (by decide) rfl,
   (C5_metric_suffixing suffixState [("loss", (2 : Int))] 0
      (none : Option Unit) 1).2.2 rfl (by decide) rfl⟩

/-- C6: calling a result accessor while the corresponding result sequence is
empty raises the no-results error (`ValueError("No values stored yet.")`);
calling it after at least one cycle returns a table in which — provided all
buffered dictionaries share one key set — every metric's value-sequence has
exactly one entry per fired cycle (one per buffered dictionary). -/
theorem C6_results_accessors {δ α : Type} (s : EvaluateDataset δ α)
    (K : List String) :
    (s._results_batches = [] →
      EvaluateDataset.results_batches s
        = .error (.valueError "No values stored yet."))
    ∧ (s._results_epochs = [] →
      EvaluateDataset.results_epochs s
        = .error (.valueError "No values stored yet."))
    ∧ (s._results_batches ≠ [] →
      (∀ d ∈ s._results_batches,
        (keys d).Nodup ∧ (∀ k ∈ keys d, k ∈ K) ∧ ∀ k ∈ K, k ∈ keys d) →
      (EvaluateDataset.results_batches s).map
          (fun u => u.all (fun p => p.2.length == s._results_batches.length))
        = .ok true)
    ∧ (s._results_epochs ≠ [] →
      (∀ d ∈ s._results_epochs,
        (keys d).Nodup ∧ (∀ k ∈ keys d, k ∈ K) ∧ ∀ k ∈ K, k ∈ keys d) →
      (EvaluateDataset.results_epochs s).map
          (fun u => u.all (fun p => p.2.length == s._results_epochs.length))
        = .ok true) := by
  refine ⟨?_, ?_, ?_, ?_⟩
  · intro h
    simp [EvaluateDataset.results_batches, h]
  · intro h
    simp [EvaluateDataset.results_epochs, h]
  · intro hne hK
    have hlen0 : ¬ s._results_batches.length = 0 := by
      simpa [List.length_eq_zero] using hne
    unfold EvaluateDataset.results_batches
    rw [if_neg hlen0]
    have hall : (EvaluateDataset._unpack_list_dicts s._results_batches).all
        (fun p => p.2.length == s._results_batches.length) = true := by
      rw [List.all_eq_true]
      intro p hp
      obtain ⟨k, vs⟩ := p
      simp only [beq_iff_eq]
      exact unpack_entry_length hK hp
    show Except.ok ((EvaluateDataset._unpack_list_dicts
        s._results_batches).all
        (fun p => p.2.length == s._results_batches.length)) = Except.ok true
    rw [hall]
  · intro hne hK
    have hlen0 : ¬ s._results_epochs.length = 0 := by
      simpa [List.length_eq_zero] using hne
    unfold EvaluateDataset.results_epochs
    rw [if_neg hlen0]
    have hall : (EvaluateDataset._unpack_list_dicts s._results_epochs).all
        (fun p => p.2.length == s._results_epochs.length) = true := by
      rw [List.all_eq_true]
      intro p hp
      obtain ⟨k, vs⟩ := p
      simp only [beq_iff_eq]
      exact unpack_entry_length hK hp
    show Except.ok ((EvaluateDataset._unpack_list_dicts
        s._results_epochs).all
        (fun p => p.2.length == s._results_epochs.length)) = Except.ok true
    rw [hall]

/-- C6 witness: the empty evaluator errors on both accessors; the two-cycle
evaluator returns tables whose single metric has two values on each axis. -/
theorem C6_results_accessors_witness :
    EvaluateDataset.results_batches disabledState
      = .error (.valueError "No values stored yet.")
    ∧ EvaluateDataset.results_epochs disabledState
      = .error (.valueError "No values stored yet.")
    ∧ (EvaluateDataset.results_batches tableState).map
        (fun u => u.all
          (fun p => p.2.length == tableState._results_batches.length))
      = .ok true
    ∧ (EvaluateDataset.results_epochs tableState).map
        (fun u => u.all
          (fun p => p.2.length == tableState._results_epochs.length))
      = .ok true :=
  ⟨(C6_results_accessors disabledState []).1 rfl,
   (C6_results_accessors disabledState []).2.1 rfl,
   (C6_results_accessors tableState ["loss"]).2.2.1 (by decide) (by decide),
   (C6_results_accessors tableState ["loss"]).2.2.2 (by decide) (by decide)⟩

/-- C7: a failure of the external evaluate operation on a firing
notification is not caught or transformed: the notification method
propagates exactly that failure and produces no new state (nothing is
appended, the notification aborts; there is no retry and no suppression). -/
theorem C7_failure_propagation {δ α ε L : Type} (e : ε)
    (s : EvaluateDataset δ α) (b : Int) (lg : Option L) (f : Int) :
    (s.freq_batches = some f → f ≠ 0 → Int.fmod s.batches_seen f = 0 →
      EvaluateDataset.on_train_batch_end (α := α) (.error e) s b lg
        = .error (.external e))
    ∧ (s.freq_epochs = some f → f ≠ 0 → Int.fmod s.epochs_seen f = 0 →
      EvaluateDataset.on_epoch_end (α := α) (.error e) s b lg
        = .error (.external e)) :=
  ⟨fun h1 h2 h3 => batch_end_fail e h1 h2 h3 b lg,
   fun h1 h2 h3 => epoch_end_fail e h1 h2 h3 b lg⟩

/-- C7 witness: with frequency 1 (cycle fires immediately), a failing
external evaluation aborts both notifications with that failure. -/
theorem C7_failure_propagation_witness :
    EvaluateDataset.on_train_batch_end (α := Int) (Except.error ())
        enabledState 0 (none : Option Unit) = .error (.external ())
    ∧ EvaluateDataset.on_epoch_end (α := Int) (Except.error ())
        enabledState 0 (none : Option Unit) = .error (.external ()) :=
  ⟨(C7_failure_propagation () enabledState 0 (none : Option Unit) 1).1
      rfl (by decide) rfl,
   (C7_failure_propagation () enabledState 0 (none : Option Unit) 1).2
      rfl (by decide) rfl⟩

/-- C8: end-to-end scenario — frequency_by_batch = 5, label_suffix =
"_TID2013", 10 batch-end notifications with the external evaluation
returning successive losses on the firing cycles: exactly 2 cycles fire
(indices 0 and 5) and the batch results table equals
`{"loss_TID2013": [-0.85, -0.90]}`. -/
theorem C8_scenario :
    (runBatches extScenario 10 scenarioState).map
        (fun u => u._results_batches.length) = .ok 2
    ∧ (runBatches extScenario 10 scenarioState).bind
        EvaluateDataset.results_batches
      = .ok [("loss_TID2013", [(-0.85 : Rat), -0.90])] := by
  constructor
  · rfl
  · rfl

/-- C9: the notification methods do not depend on the batch/epoch ordinal
argument or on the logs argument (present or absent, of any type): from
identical evaluator states with the same external evaluation outcome, the
entire result — state, firing, appends, errors — is identical; triggering is
pure counter arithmetic. -/
theorem C9_ordinal_logs_irrelevant {δ α ε L L2 : Type}
    (ext : Except ε (List (String × α))) (s : EvaluateDataset δ α)
    (b b2 : Int) (lg : Option L) (lg2 : Option L2) :
    EvaluateDataset.on_train_batch_end ext s b lg
      = EvaluateDataset.on_train_batch_end ext s b2 lg2
    ∧ EvaluateDataset.on_epoch_end ext s b lg
      = EvaluateDataset.on_epoch_end ext s b2 lg2 :=
  ⟨rfl, rfl⟩

/-- C10: for every non-empty list of metric dictionaries, even with
differing key sets (each dictionary having unique keys),
`_unpack_list_dicts` returns without error a table in which every key
occurring in at least one dictionary maps to the ordered list of its values
from exactly the dictionaries that contain it (so late-appearing keys get
shorter lists), and a key occurring nowhere is absent. -/
theorem C10_unpack_mixed_keys {α : Type} (l : List (List (String × α)))
    (hne : l ≠ []) (hnd : ∀ d ∈ l, (keys d).Nodup) (k : String) :
    (collectKey k l ≠ [] →
      lookupKey k (EvaluateDataset._unpack_list_dicts l)
        = some (collectKey k l))
    ∧ (collectKey k l = [] →
      lookupKey k (EvaluateDataset._unpack_list_dicts l) = none) :=
  ⟨fun h => lookupKey_unpack_of_ne hnd h, fun h => lookupKey_unpack_of_nil h⟩

/-- C10 witness: in `[{"a": 1}, {"a": 2, "b": 3}]` the key "b", first
appearing in the second dictionary, gets the single-value list `[3]`, while
the absent key "c" is not in the table. -/
theorem C10_unpack_mixed_keys_witness :
    lookupKey "b" (EvaluateDataset._unpack_list_dicts mixedDicts)
      = some (collectKey "b" mixedDicts)
    ∧ lookupKey "c" (EvaluateDataset._unpack_list_dicts mixedDicts) = none :=
  ⟨(C10_unpack_mixed_keys mixedDicts (by decide) (by decide) "b").1
      (by decide),
   (C10_unpack_mixed_keys mixedDicts (by decide) (by decide) "c").2
      (by decide)⟩

end FancyKeras
